import Mathlib

/-!
Verification of the CEM trajectory-optimizer core of the robot-aware-control
repository (`src/cem/demo_cem.py`, together with the configuration surface in
`src/config/__init__.py` and the environment code in
`src/env/fetch/fetch_push.py`), as a shallow embedding in Lean 4.

Numeric tensors are embedded as lists of rationals (torch float tensors become
`List ℚ` / `List (List ℚ)`); torch library calls (`topk`, `std_mean`,
`Normal.sample`) are embedded by their documented semantics; Python exceptions
become `Except`.
-/

set_option maxHeartbeats 1000000

namespace RAC

/-- A rank-2 numeric tensor (torch tensor of shape (rows, cols)), stored as a
list of rows. -/
abbrev Mat := List (List ℚ)

/-- Shape predicate for a rank-2 tensor: exactly `L` rows, each of length `A`. -/
def HasShape (m : Mat) (L A : ℕ) : Prop := m.length = L ∧ ∀ r ∈ m, r.length = A

/-- torch.zeros(L, A), the initial CEM mean. -/
def zerosMat (L A : ℕ) : Mat := List.replicate L (List.replicate A 0)

/-- torch.ones(L, A), the initial CEM std. -/
def onesMat (L A : ℕ) : Mat := List.replicate L (List.replicate A 1)

/-!
### torch.topk

`costs.topk(K)` returns the `K` largest entries together with their positions.
We model it on value/position pairs: sort by value descending and position
ascending (a linear order on the pairs of `List.enum`, whose positions are
distinct, so the sorted output is unique and ties are resolved in favour of the
first-seen position), then keep the first `K` positions.
-/

/-- Ranking relation modelling torch.topk: value descending, then original
position ascending. -/
def SelLE {C : Type} [LinearOrder C] (p q : ℕ × C) : Prop :=
  q.2 < p.2 ∨ (p.2 = q.2 ∧ p.1 ≤ q.1)

instance {C : Type} [LinearOrder C] : DecidableRel (@SelLE C _) := by
  intro p q
  unfold SelLE
  infer_instance

instance {C : Type} [LinearOrder C] : IsTotal (ℕ × C) SelLE := by
  constructor
  intro p q
  rcases lt_trichotomy p.2 q.2 with h | h | h
  · exact Or.inr (Or.inl h)
  · rcases le_total p.1 q.1 with h1 | h1
    · exact Or.inl (Or.inr ⟨h, h1⟩)
    · exact Or.inr (Or.inr ⟨h.symm, h1⟩)
  · exact Or.inl (Or.inl h)

instance {C : Type} [LinearOrder C] : IsTrans (ℕ × C) SelLE := by
  constructor
  intro p q r hpq hqr
  rcases hpq with h1 | ⟨h1, h1'⟩
  · rcases hqr with h2 | ⟨h2, h2'⟩
    · exact Or.inl (h2.trans h1)
    · exact Or.inl (h2 ▸ h1)
  · rcases hqr with h2 | ⟨h2, h2'⟩
    · exact Or.inl (h1 ▸ h2)
    · exact Or.inr ⟨h1.trans h2, h1'.trans h2'⟩

/-- Positions of the `k` largest entries of `costs`, values descending, ties by
ascending position (torch.topk(costs, k).indices). -/
def topkIdx {C : Type} [LinearOrder C] (k : ℕ) (costs : List C) : List ℕ :=
  ((List.insertionSort SelLE costs.enum).take k).map Prod.fst

/-- torch.topk raises a runtime error when `k` exceeds the number of entries;
otherwise it returns the positions of the `k` largest entries. -/
def torchTopk {C : Type} [LinearOrder C] (k : ℕ) (costs : List C) :
    Except String (List ℕ) :=
  if k ≤ costs.length then .ok (topkIdx k costs)
  else .error "selected index k out of range"

/-!
### torch.std_mean

`torch.std_mean(top_act_seq, dim=0)` reduces a (K, L, A) stack of elite
candidates elementwise over the batch dimension. Its default is
`unbiased=True`: the std is the Bessel-corrected sample standard deviation,
dividing the sum of squared deviations by K-1. We record the square of the
std (the variance torch computes before its square root) to stay inside ℚ;
torch's std entry is the square root of ours. With fewer than two elites
torch produces NaN entries; the model returns 0 there (division by zero in
ℚ), a case no claim touches.
-/

/-- The values of cell (l, a) across a batch of matrices. -/
def colVals (xs : List Mat) (l a : ℕ) : List ℚ :=
  xs.map fun m => (m.getD l []).getD a 0

/-- Elementwise sample mean over a batch. -/
def listMean (v : List ℚ) : ℚ := v.sum / v.length

/-- Bessel-corrected sample variance (the square of torch.std with the default
unbiased=True): sum of squared deviations over n-1. -/
def besselVar (v : List ℚ) : ℚ :=
  (v.map fun x => (x - listMean v) ^ 2).sum / ((v.length - 1 : ℕ) : ℚ)

/-- torch.std_mean(xs, dim=0) on a batch of (L, A) matrices, with std squared:
first component the (L, A) matrix of Bessel-corrected variances, second the
(L, A) matrix of means. -/
def torchStdSqMean (L A : ℕ) (xs : List Mat) : Mat × Mat :=
  ((List.range L).map fun l => (List.range A).map fun a => besselVar (colVals xs l a),
   (List.range L).map fun l => (List.range A).map fun a => listMean (colVals xs l a))

/-- The REFIT standard deviation the spec claims, squared: the population
(not Bessel-corrected) variance, dividing the sum of squared deviations by
the batch size K. Written from the spec's words, for comparison with
torchStdSqMean. -/
def specPopVarMat (L A : ℕ) (xs : List Mat) : Mat :=
  (List.range L).map fun l => (List.range A).map fun a =>
    ((colVals xs l a).map fun x => (x - listMean (colVals xs l a)) ^ 2).sum /
      ((colVals xs l a).length : ℚ)

/-!
### Sampling

`Normal(mean, std).sample((J,))` draws J × L × A independent standard-normal
variates from torch's global generator and returns `mean + std * z`. The
generator is modelled as a stream `rng : ℕ → ℚ` of its successive draws (the
stream is a function of the seed alone), consumed at distinct positions per
(iteration, candidate, row, column). `sqrtFn` is torch's square root, turning
the recorded squared std back into the std the distribution is built from.
-/

/-- Draw the (J, L, A) candidate batch for one CEM iteration. -/
def sampleCandidates (L A J : ℕ) (sqrtFn : ℚ → ℚ) (mean stdSq : Mat)
    (rng : ℕ → ℚ) (base : ℕ) : List Mat :=
  (List.range J).map fun j =>
    (List.range L).map fun l =>
      (List.range A).map fun a =>
        (mean.getD l []).getD a 0 +
          sqrtFn ((stdSq.getD l []).getD a 0) * rng (base + (j * L + l) * A + a)

/-!
### DemoCEMPolicy
-/

/-- The rollout dictionary produced by generate_env_rollouts /
generate_model_rollouts, as consumed by get_action. The cost type is a
parameter so that torch float values with NaN can be modelled. -/
structure Rollouts (C : Type) where
  sum_cost : List C
  step_cost : List C
  step_gt_cost : List C
  optimal_sum_cost : C
deriving DecidableEq

/-- The configuration fields DemoCEMPolicy.__init__ reads. -/
structure Cfg where
  horizon : ℕ
  opt_iter : ℕ
  action_candidates : ℕ
  topk : ℕ
  replan_every : ℕ

/-- The hyperparameter fields DemoCEMPolicy.__init__ assigns. -/
structure Policy where
  L : ℕ
  I : ℕ
  J : ℕ
  K : ℕ
  R : ℕ
  A : ℕ

/-- DemoCEMPolicy.__init__ on the ground-truth-dynamics, no-debug path: it
copies the hyperparameters out of the config and infers the action size from
the environment's action space. The body contains no validation of any kind;
`Except` gives a Python constructor room to raise, which this one never uses. -/
def initPolicy (cfg : Cfg) (envActionDim : ℕ) : Except String Policy :=
  .ok { L := cfg.horizon, I := cfg.opt_iter, J := cfg.action_candidates,
        K := cfg.topk, R := cfg.replan_every, A := envActionDim }

/-- The mutable locals of get_action's optimization loop. `trace` is an
observer recording the belief (mean, squared std) after each REFIT, used to
state the reproducibility property. `rollouts?` tracks whether the Python
local `rollouts` has been bound yet. -/
structure LoopState (C : Type) where
  mean : Mat
  stdSq : Mat
  trace : List (Mat × Mat)
  gt_costs_data : List (List C)
  metric_costs_data : List (List C)
  rollouts? : Option (Rollouts C)
deriving DecidableEq

instance {ε α : Type} [DecidableEq ε] [DecidableEq α] : DecidableEq (Except ε α) := by
  intro a b
  cases a <;> cases b
  case error.error e1 e2 => exact decidable_of_iff (e1 = e2) (by simp)
  case error.ok e1 a2 => exact .isFalse (by simp)
  case ok.error a1 e2 => exact .isFalse (by simp)
  case ok.ok a1 a2 => exact decidable_of_iff (a1 = a2) (by simp)

/-- The loop state entering the optimization loop: zero mean and unit std of
shape (L, A) (1² = 1, so the squared std is also all ones), empty logs, the
local `rollouts` not yet bound. -/
def initState (C : Type) (L A : ℕ) : LoopState C :=
  { mean := zerosMat L A, stdSq := onesMat L A, trace := [],
    gt_costs_data := [], metric_costs_data := [], rollouts? := none }

/-- The SELECT and REFIT tail of one loop iteration, given the sampled
candidate batch and its rollouts: SELECT the top-K by `costs.topk(K)` on
sum_cost, gather the elite batch with index_select, REFIT mean and std with
torch.std_mean, and append to the cost logs. -/
def selectRefit {C : Type} [LinearOrder C] (pol : Policy) (st : LoopState C)
    (act_seq : List Mat) (rollouts : Rollouts C) : Except String (LoopState C) :=
  match torchTopk pol.K rollouts.sum_cost with
  | .error e => .error e
  | .ok top_idx =>
    .ok { mean := (torchStdSqMean pol.L pol.A
            (top_idx.map fun i => act_seq.getD i [])).2,
          stdSq := (torchStdSqMean pol.L pol.A
            (top_idx.map fun i => act_seq.getD i [])).1,
          trace := st.trace ++
            [((torchStdSqMean pol.L pol.A
                (top_idx.map fun i => act_seq.getD i [])).2,
              (torchStdSqMean pol.L pol.A
                (top_idx.map fun i => act_seq.getD i [])).1)],
          gt_costs_data := st.gt_costs_data ++ [rollouts.step_gt_cost],
          metric_costs_data := st.metric_costs_data ++ [rollouts.step_cost],
          rollouts? := some rollouts }

/-- One iteration of get_action's optimization loop: SAMPLE J candidates from
Normal(mean, std), EVALUATE them through the rollout function, then SELECT
and REFIT. `it` is the iteration number (fixing which stretch of the random
stream is consumed). -/
def cemIter {C : Type} [LinearOrder C] (pol : Policy) (sqrtFn : ℚ → ℚ)
    (rollFn : List Mat → Rollouts C) (rng : ℕ → ℚ) (it : ℕ)
    (st : LoopState C) : Except String (LoopState C) :=
  selectRefit pol st
    (sampleCandidates pol.L pol.A pol.J sqrtFn st.mean st.stdSq rng
      (it * (pol.J * pol.L * pol.A)))
    (rollFn (sampleCandidates pol.L pol.A pol.J sqrtFn st.mean st.stdSq rng
      (it * (pol.J * pol.L * pol.A))))

/-- Run `n` remaining loop iterations, the next carrying iteration number
`it`; a raised exception aborts the call. -/
def cemRun {C : Type} [LinearOrder C] (pol : Policy) (sqrtFn : ℚ → ℚ)
    (rollFn : List Mat → Rollouts C) (rng : ℕ → ℚ) :
    ℕ → ℕ → LoopState C → Except String (LoopState C)
  | _, 0, st => .ok st
  | it, n + 1, st =>
    match cemIter pol sqrtFn rollFn rng it st with
    | .error e => .error e
    | .ok st' => cemRun pol sqrtFn rollFn rng (it + 1) n st'

/-- DemoCEMPolicy.get_action: initialize the belief to zero mean and unit std
of shape (L, A), run I optimization iterations, print a diagnostic line that
reads the last iteration's `rollouts` local (unbound when I = 0, so Python
raises there), and return the first R rows of the final mean together with
the two per-iteration cost logs. -/
def getAction {C : Type} [LinearOrder C] (pol : Policy) (sqrtFn : ℚ → ℚ)
    (rollFn : List Mat → Rollouts C) (rng : ℕ → ℚ) :
    Except String (Mat × List (List C) × List (List C)) :=
  match cemRun pol sqrtFn rollFn rng 0 pol.I (initState C pol.L pol.A) with
  | .error e => .error e
  | .ok st =>
    match st.rollouts? with
    | none => .error "UnboundLocalError: local variable rollouts referenced before assignment"
    | some _ => .ok (st.mean.take pol.R, st.gt_costs_data, st.metric_costs_data)

/-- Observer for the reproducibility property: the per-iteration belief
trajectory (mean and squared std after each REFIT) of a get_action call. -/
def getActionTrace {C : Type} [LinearOrder C] (pol : Policy) (sqrtFn : ℚ → ℚ)
    (rollFn : List Mat → Rollouts C) (rng : ℕ → ℚ) :
    Except String (List (Mat × Mat)) :=
  (cemRun pol sqrtFn rollFn rng 0 pol.I (initState C pol.L pol.A)).map
    fun st => st.trace

/-!
### Rollout cost convention
-/

/-- Modelled from the spec: `src/cem/trajectory_sampler.py` (the
generate_env_rollouts / generate_model_rollouts implementations) is absent
from the reviewed sources. Per the specification the per-candidate
sum_cost entry is the cumulative raw reward — the negation of the
candidate's cumulative lower-is-better cost ("the implementation may store
them negated internally as rewards", and the environment's compute_reward
indeed returns negated distances). -/
def sumCostOfCumCost (cumCost : List ℚ) : List ℚ := cumCost.map fun c => -c

/-!
### Goal-sequence clamping (get_action's rollout visualization, and per the
spec the same indexing rule in rollout cost evaluation)
-/

/-- Python list indexing `xs[i]` with a possibly negative index: a negative
index counts from the end; an out-of-range index raises IndexError (none). -/
def pyGetItem {α : Type} (xs : List α) (i : ℤ) : Option α :=
  if 0 ≤ i then xs.get? i.toNat
  else if (-i).toNat ≤ xs.length then xs.get? (xs.length - (-i).toNat)
  else none

/-- The goal-frame index used at rollout step t:
`g = t if t < len(goal_imgs) else -1`. -/
def goalIdx (t G : ℕ) : ℤ := if t < G then (t : ℤ) else -1

/-- `goal_img = goal_imgs[g]` at rollout step `t`. -/
def goalImgAt {α : Type} (goal_imgs : List α) (t : ℕ) : Option α :=
  pyGetItem goal_imgs (goalIdx t goal_imgs.length)

/-!
### Environment state discipline of planning-internal simulator use
-/

/-- The environment's flattened mujoco state, as saved and reloaded by
get_flattened_state / set_flattened_state. -/
abbrev EnvState := ℤ

/-- Modelled from the spec: generate_env_rollouts (in the absent
trajectory_sampler.py) mutates the environment while rolling out the
candidates and restores the environment to its own pre-call state before
returning, so as a transformer of the environment state it is the
identity. -/
def envRolloutsState (s : EnvState) : EnvState := s

/-- DemoCEMPolicy.compare_optimal_actions as a transformer of the environment
state. The body runs straight through: save `old_state`, set the environment
to the demo's start state, generate the environment rollout (which restores
to its pre-call state, the demo start), generate the model rollout (learned
dynamics, no environment mutation), build the comparison gif, write it with
imageio.mimwrite — a filesystem call that can raise, modelled by `writeOk` —
and only then `set_flattened_state(old_state)`. There is no try/finally, so
on the write-failure path the exception propagates with the environment
still in the demo's start state; `Except.error` carries the state at the
raise. -/
def compareOptimalActions (writeOk : Bool) (s0 demoStart : EnvState) :
    Except EnvState EnvState :=
  let old_state := s0
  let s1 := demoStart
  let s2 := envRolloutsState s1
  if writeOk then .ok old_state else .error s2

/-!
### CLI reward_type choices versus the environment's reward dispatch
-/

/-- The `choices` list of the `--reward_type` flag in add_method_arguments.
The source writes the fourth element as two adjacent string literals, which
Python concatenates into the single choice "sparseblackrobot". -/
def rewardTypeChoices : List String :=
  ["weighted", "dense", "inpaint", "sparse" ++ "blackrobot", "inpaint-blur"]

/-- The branch of FetchPushEnv's reward computation that a reward_type value
reaches when observations are pixels: the weighted family is forwarded to
weighted_cost — whose own dispatch separates the inpaint variants, "weighted"
and "blackrobot" (blacking out robot pixels) — then "sparse" and "dense"
return directly, and anything else falls through to the superclass. -/
inductive RewardBranch
  | inpaintFamily
  | weighted
  | blackrobot
  | sparse
  | dense
  | superclass
deriving DecidableEq

/-- FetchPushEnv.compute_reward's dispatch on reward_type (pixel
observations), flattened together with weighted_cost's inner dispatch. -/
def computeRewardBranch (reward_type : String) : RewardBranch :=
  if reward_type = "inpaint" ∨ reward_type = "inpaint-blur" then .inpaintFamily
  else if reward_type = "weighted" then .weighted
  else if reward_type = "blackrobot" then .blackrobot
  else if reward_type = "sparse" then .sparse
  else if reward_type = "dense" then .dense
  else .superclass

/-!
### Helper lemmas
-/

theorem zerosMat_shape (L A : ℕ) : HasShape (zerosMat L A) L A := by
  constructor
  · simp [zerosMat]
  · intro r hr
    rcases List.eq_of_mem_replicate hr with rfl
    simp

theorem onesMat_shape (L A : ℕ) : HasShape (onesMat L A) L A := by
  constructor
  · simp [onesMat]
  · intro r hr
    rcases List.eq_of_mem_replicate hr with rfl
    simp

theorem listMean_mul (v : List ℚ) : listMean v * (v.length : ℚ) = v.sum := by
  rcases v with _ | ⟨x, xs⟩
  · simp [listMean]
  · rw [listMean]
    apply div_mul_cancel₀
    intro hc
    norm_cast at hc

theorem besselVar_mul (v : List ℚ) :
    besselVar v * ((v.length - 1 : ℕ) : ℚ) =
      (v.map fun x => (x - listMean v) ^ 2).sum := by
  rcases v with _ | ⟨x, xs⟩
  · simp [besselVar]
  rcases xs with _ | ⟨y, ys⟩
  · simp [besselVar, listMean]
  · rw [besselVar]
    apply div_mul_cancel₀
    intro hc
    norm_cast at hc

theorem getD_of_get? {α : Type} {l : List α} {n : ℕ} {a : α} (d : α)
    (h : l.get? n = some a) : l.getD n d = a := by
  rw [List.getD_eq_getElem?_getD, ← List.get?_eq_getElem?, h]
  rfl

theorem getD_range_map {β : Type} (f : ℕ → β) (N n : ℕ) (d : β) (hn : n < N) :
    (((List.range N).map f).getD n d) = f n := by
  apply getD_of_get?
  rw [List.get?_map, List.get?_range hn]
  rfl

theorem range_map_shape (L A : ℕ) (g : ℕ → ℕ → ℚ) :
    HasShape ((List.range L).map fun l => (List.range A).map fun a => g l a) L A := by
  constructor
  · simp
  · intro r hr
    rcases List.mem_map.1 hr with ⟨l, _, rfl⟩
    simp

theorem getD_of_getElem? {α : Type} {l : List α} {n : ℕ} {a : α} (d : α)
    (h : l[n]? = some a) : l.getD n d = a := by
  rw [List.getD_eq_getElem?_getD, h]
  rfl

theorem enum_mem_val {C : Type} {v : List C} {p : ℕ × C} (d : C)
    (h : p ∈ v.enum) : p.1 < v.length ∧ v.getD p.1 d = p.2 := by
  have hv : v[p.1]? = some p.2 := List.mem_enum_iff_getElem?.1 h
  have hlt : p.1 < v.length := by
    by_contra hc
    rw [List.getElem?_eq_none (by omega)] at hv
    exact Option.noConfusion hv
  exact ⟨hlt, getD_of_getElem? d hv⟩

/-- Characterization of the modelled torch.topk: given k ≤ |v|, it returns
exactly k distinct in-range positions, and every returned position beats
every non-returned one — strictly larger value, or equal value and smaller
position (first-seen wins on ties). -/
theorem topkIdx_spec {C : Type} [LinearOrder C] (k : ℕ) (v : List C) (d : C)
    (hk : k ≤ v.length) :
    (topkIdx k v).length = k ∧ (topkIdx k v).Nodup ∧
    (∀ i ∈ topkIdx k v, i < v.length) ∧
    (∀ i ∈ topkIdx k v, ∀ j, j < v.length → j ∉ topkIdx k v →
      v.getD j d < v.getD i d ∨ (v.getD i d = v.getD j d ∧ i < j)) := by
  classical
  set s := List.insertionSort SelLE v.enum with hsdef
  have hperm : s.Perm v.enum := List.perm_insertionSort _ _
  have hsorted : List.Sorted SelLE s := List.sorted_insertionSort _ _
  have hslen : s.length = v.length := by
    rw [hperm.length_eq, List.enum_length]
  have hmapfst : (s.map Prod.fst).Nodup :=
    ((hperm.map Prod.fst).nodup_iff).2 (List.nodup_enum_map_fst v)
  have hunf : topkIdx k v = (s.take k).map Prod.fst := rfl
  have hunf' : topkIdx k v = (s.map Prod.fst).take k := by
    rw [hunf, List.map_take]
  have hmemval : ∀ p ∈ s, p.1 < v.length ∧ v.getD p.1 d = p.2 := by
    intro p hp
    exact enum_mem_val d (hperm.subset hp)
  refine ⟨?_, ?_, ?_, ?_⟩
  · rw [hunf', List.length_take, List.length_map, hslen]
    omega
  · rw [hunf']
    exact hmapfst.sublist (List.take_sublist _ _)
  · intro i hi
    rw [hunf] at hi
    obtain ⟨p, hp, rfl⟩ := List.mem_map.1 hi
    exact (hmemval p (List.mem_of_mem_take hp)).1
  · intro i hi j hj hjn
    rw [hunf] at hi hjn
    obtain ⟨p, hpTake, rfl⟩ := List.mem_map.1 hi
    have hpval := hmemval p (List.mem_of_mem_take hpTake)
    have hqv : v[j]? = some (v.getD j d) := by
      rw [List.getElem?_eq_getElem hj, getD_of_getElem? d (List.getElem?_eq_getElem hj)]
    have hq_enum : ((j, v.getD j d) : ℕ × C) ∈ v.enum :=
      List.mem_enum_iff_getElem?.2 hqv
    have hq_s : ((j, v.getD j d) : ℕ × C) ∈ s := hperm.mem_iff.2 hq_enum
    rw [← List.take_append_drop k s] at hq_s
    rcases List.mem_append.1 hq_s with hqt | hqd
    · exact absurd (List.mem_map.2 ⟨_, hqt, rfl⟩) hjn
    · have hrel : SelLE p (j, v.getD j d) :=
        hsorted.rel_of_mem_take_of_mem_drop hpTake hqd
      have hne : p.1 ≠ j := by
        intro he
        have h1 : p.1 ∈ (s.map Prod.fst).take k := by
          rw [← List.map_take]
          exact List.mem_map.2 ⟨p, hpTake, rfl⟩
        have h2 : j ∈ (s.map Prod.fst).drop k := by
          rw [← List.map_drop]
          exact List.mem_map.2 ⟨_, hqd, rfl⟩
        have hnd : ((s.map Prod.fst).take k ++ (s.map Prod.fst).drop k).Nodup := by
          rwa [List.take_append_drop]
        exact (List.disjoint_of_nodup_append hnd) h1 (he ▸ h2)
      rcases hrel with hlt | ⟨heq, hle⟩
      · left
        rw [hpval.2]
        exact hlt
      · right
        rw [hpval.2]
        exact ⟨heq, Nat.lt_of_le_of_ne hle hne⟩

/-!
### Claim theorems
-/

/-- Claim C1: in every CEM iteration the SELECT step — `costs.topk(K)` on the
sum_cost vector, which stores each candidate's cumulative reward, the
negation of its cumulative true cost — chooses exactly the K candidates with
the highest raw reward, equivalently the K lowest cumulative true cost, with
ties broken stably by ascending original candidate index (first-seen wins):
the selection has K distinct in-range indices and every selected index has
strictly lower cost than every unselected one, or equal cost and a smaller
index. -/
theorem c1_select_topk (k : ℕ) (cumCost : List ℚ) (hk : k ≤ cumCost.length)
    (sel : List ℕ) (hsel : torchTopk k (sumCostOfCumCost cumCost) = .ok sel) :
    sel.length = k ∧ sel.Nodup ∧ (∀ i ∈ sel, i < cumCost.length) ∧
    (∀ i ∈ sel, ∀ j, j < cumCost.length → j ∉ sel →
      cumCost.getD i 0 < cumCost.getD j 0 ∨
        (cumCost.getD i 0 = cumCost.getD j 0 ∧ i < j)) := by
  have hlen : (sumCostOfCumCost cumCost).length = cumCost.length := by
    simp [sumCostOfCumCost]
  have hsel' : sel = topkIdx k (sumCostOfCumCost cumCost) := by
    unfold torchTopk at hsel
    rw [if_pos (by omega)] at hsel
    exact (Except.ok.inj hsel).symm
  obtain ⟨h1, h2, h3, h4⟩ := topkIdx_spec k (sumCostOfCumCost cumCost) 0 (by omega)
  have hmap : ∀ n, n < cumCost.length →
      (sumCostOfCumCost cumCost).getD n 0 = -(cumCost.getD n 0) := by
    intro n hn
    have hv : cumCost.getD n 0 = cumCost[n] :=
      getD_of_getElem? 0 (List.getElem?_eq_getElem hn)
    apply getD_of_getElem?
    rw [sumCostOfCumCost, List.getElem?_map, List.getElem?_eq_getElem hn, hv]
    rfl
  subst hsel'
  refine ⟨h1, h2, fun i hi => by have := h3 i hi; omega, ?_⟩
  intro i hi j hj hjn
  have hi' : i < cumCost.length := by have := h3 i hi; omega
  have h4' := h4 i hi j (by omega) hjn
  rcases h4' with hlt | ⟨heq, hij⟩
  · left
    rw [hmap i hi', hmap j hj] at hlt
    linarith
  · right
    rw [hmap i hi', hmap j hj] at heq
    exact ⟨by linarith, hij⟩

/-- Claim C1 witness: on the cumulative-cost vector [3, 1, 2, 1] with K = 2,
SELECT returns indices 1 and 3 — the two cost-1 candidates, the tie between
them resolved in favour of the earlier index, listed best-first. -/
theorem c1_select_topk_witness :
    torchTopk 2 (sumCostOfCumCost [3, 1, 2, 1]) = .ok [1, 3] ∧
    ([1, 3] : List ℕ).length = 2 ∧ ([1, 3] : List ℕ).Nodup ∧
    (∀ i ∈ ([1, 3] : List ℕ), i < ([3, 1, 2, 1] : List ℚ).length) ∧
    (∀ i ∈ ([1, 3] : List ℕ), ∀ j, j < ([3, 1, 2, 1] : List ℚ).length →
      j ∉ ([1, 3] : List ℕ) →
      ([3, 1, 2, 1] : List ℚ).getD i 0 < ([3, 1, 2, 1] : List ℚ).getD j 0 ∨
        (([3, 1, 2, 1] : List ℚ).getD i 0 = ([3, 1, 2, 1] : List ℚ).getD j 0 ∧
          i < j)) := by
  have hok : torchTopk 2 (sumCostOfCumCost [3, 1, 2, 1]) = .ok [1, 3] := by rfl
  have h := c1_select_topk 2 [3, 1, 2, 1] (by decide) [1, 3] hok
  exact ⟨hok, h.1, h.2.1, h.2.2.1, h.2.2.2⟩

theorem topkIdx_length {C : Type} [LinearOrder C] (k : ℕ) (v : List C)
    (hk : k ≤ v.length) : (topkIdx k v).length = k := by
  unfold topkIdx
  rw [List.length_map, List.length_take,
    (List.perm_insertionSort SelLE v.enum).length_eq, List.enum_length]
  omega

/-- SELECT + REFIT produces a belief of shape (L, A) whose mean is the
elementwise sample mean and whose squared std times (K-1) is the sum of
squared deviations, over precisely the elite batch that SELECT picked: the
K candidates gathered from the sampled batch at the positions topk
returned. -/
theorem selectRefit_shape_meanvar {C : Type} [LinearOrder C] (pol : Policy)
    (st : LoopState C) (acts : List Mat) (ro : Rollouts C) (st' : LoopState C)
    (h : selectRefit pol st acts ro = .ok st') :
    HasShape st'.mean pol.L pol.A ∧ HasShape st'.stdSq pol.L pol.A ∧
    ∃ top_idx : List ℕ,
      torchTopk pol.K ro.sum_cost = .ok top_idx ∧
      top_idx.length = pol.K ∧
      ∀ l < pol.L, ∀ a < pol.A,
        (st'.mean.getD l []).getD a 0 * (pol.K : ℚ) =
          (colVals (top_idx.map fun i => acts.getD i []) l a).sum ∧
        (st'.stdSq.getD l []).getD a 0 * ((pol.K - 1 : ℕ) : ℚ) =
          ((colVals (top_idx.map fun i => acts.getD i []) l a).map fun x =>
            (x - (st'.mean.getD l []).getD a 0) ^ 2).sum := by
  unfold selectRefit at h
  split at h
  · exact Except.noConfusion h
  · rename_i top_idx heq
    obtain rfl : _ = st' := Except.ok.inj h
    have heq' := heq
    have hks : pol.K ≤ ro.sum_cost.length ∧ topkIdx pol.K ro.sum_cost = top_idx := by
      unfold torchTopk at heq'
      split at heq'
      · exact ⟨by assumption, Except.ok.inj heq'⟩
      · exact Except.noConfusion heq'
    have hlen_idx : top_idx.length = pol.K := by
      rw [← hks.2]
      exact topkIdx_length pol.K ro.sum_cost hks.1
    dsimp only [torchStdSqMean]
    refine ⟨range_map_shape _ _ _, range_map_shape _ _ _, top_idx, heq,
      hlen_idx, ?_⟩
    intro l hl a ha
    have hget : ∀ g : ℕ → ℕ → ℚ,
        ((((List.range pol.L).map fun l0 => (List.range pol.A).map fun a0 =>
          g l0 a0).getD l []).getD a 0) = g l a := by
      intro g
      rw [getD_range_map _ _ _ _ hl, getD_range_map _ _ _ _ ha]
    have hcol : (colVals (top_idx.map fun i => acts.getD i []) l a).length =
        pol.K := by
      simp [colVals, hlen_idx]
    constructor
    · rw [hget fun l0 a0 => listMean (colVals _ l0 a0), ← hcol]
      exact listMean_mul _
    · rw [hget fun l0 a0 => besselVar (colVals _ l0 a0),
          hget fun l0 a0 => listMean (colVals _ l0 a0), ← hcol]
      exact besselVar_mul _

/-- Claim C2 counterexample: on the elite batch of two 1-by-1 candidates with
values 0 and 2, torch.std_mean returns the squared std 2 — the
Bessel-corrected sample variance, dividing by K-1 = 1 — while the population
variance claimed by the spec is 1. The squared values differ (2 is not 1),
and since any square root is injective on non-negative values, the std torch
produces is not the population standard deviation. The mean (1) agrees. -/
theorem c2_counterexample :
    torchStdSqMean 1 1 [[[0]], [[2]]] = ([[2]], [[1]]) ∧
    specPopVarMat 1 1 [[[0]], [[2]]] = [[1]] ∧
    ([[2]] : Mat) ≠ ([[1]] : Mat) := by
  refine ⟨?_, ?_, by norm_num⟩
  · norm_num [torchStdSqMean, colVals, besselVar, listMean, List.range_succ]
  · norm_num [specPopVarMat, colVals, besselVar, listMean, List.range_succ]

/-- Claim C2 (amended): after the REFIT step of every CEM iteration, the
belief mean is the elementwise sample mean of the K elite candidates — the
candidates that SELECT's topk picked from this iteration's sampled batch
(the top_idx below, tied to the iteration by the torchTopk equation on the
iteration's own rollout costs, with exactly K positions) — and the belief
std is their elementwise Bessel-corrected (unbiased, dividing by K-1) sample
standard deviation, stated via its square: mean times K equals the elite
column sum, and squared-std times (K-1) equals the sum of squared deviations
from the mean; both have shape (L, A). -/
theorem c2_refit_sample_mean_bessel_std {C : Type} [LinearOrder C]
    (pol : Policy) (sqrtFn : ℚ → ℚ) (rollFn : List Mat → Rollouts C)
    (rng : ℕ → ℚ) (it : ℕ) (st st' : LoopState C)
    (h : cemIter pol sqrtFn rollFn rng it st = .ok st') :
    HasShape st'.mean pol.L pol.A ∧ HasShape st'.stdSq pol.L pol.A ∧
    ∃ top_idx : List ℕ,
      torchTopk pol.K ((rollFn (sampleCandidates pol.L pol.A pol.J sqrtFn
        st.mean st.stdSq rng (it * (pol.J * pol.L * pol.A)))).sum_cost) =
          .ok top_idx ∧
      top_idx.length = pol.K ∧
      ∀ l < pol.L, ∀ a < pol.A,
        (st'.mean.getD l []).getD a 0 * (pol.K : ℚ) =
          (colVals (top_idx.map fun i =>
            (sampleCandidates pol.L pol.A pol.J sqrtFn st.mean st.stdSq rng
              (it * (pol.J * pol.L * pol.A))).getD i []) l a).sum ∧
        (st'.stdSq.getD l []).getD a 0 * ((pol.K - 1 : ℕ) : ℚ) =
          ((colVals (top_idx.map fun i =>
            (sampleCandidates pol.L pol.A pol.J sqrtFn st.mean st.stdSq rng
              (it * (pol.J * pol.L * pol.A))).getD i []) l a).map fun x =>
            (x - (st'.mean.getD l []).getD a 0) ^ 2).sum := by
  unfold cemIter at h
  exact selectRefit_shape_meanvar _ _ _ _ _ h

/-- Claim C2 witness: a concrete CEM iteration (two distinct candidates 0
and 1, both elite, K = 2) whose REFIT output — mean 1/2, squared std 1/2 =
(0 - 1/2)² + (1 - 1/2)² over K-1 = 1 — satisfies the sample-mean /
Bessel-variance characterization over the topk-selected elite batch, with
shape (1, 1). -/
theorem c2_refit_witness :
    cemIter (C := ℚ) { L := 1, I := 1, J := 2, K := 2, R := 1, A := 1 } id
        (fun a => ⟨a.map fun _ => 0, [], [], 0⟩) (fun n => n) 0
        (initState ℚ 1 1) =
      .ok { mean := [[1/2]], stdSq := [[1/2]], trace := [([[1/2]], [[1/2]])],
            gt_costs_data := [[]], metric_costs_data := [[]],
            rollouts? := some ⟨[0, 0], [], [], 0⟩ } ∧
    HasShape ([[(1 : ℚ)/2]] : Mat) 1 1 ∧ HasShape ([[(1 : ℚ)/2]] : Mat) 1 1 ∧
    ∃ top_idx : List ℕ,
      torchTopk 2 ((sampleCandidates 1 1 2 id (initState ℚ 1 1).mean
          (initState ℚ 1 1).stdSq (fun n => n) 0).map fun _ => (0 : ℚ)) =
        .ok top_idx ∧
      top_idx.length = 2 ∧
      ∀ l < 1, ∀ a < 1,
        (([[(1 : ℚ)/2]] : Mat).getD l []).getD a 0 * ((2 : ℕ) : ℚ) =
          (colVals (top_idx.map fun i =>
            (sampleCandidates 1 1 2 id (initState ℚ 1 1).mean
              (initState ℚ 1 1).stdSq (fun n => n) 0).getD i []) l a).sum ∧
        (([[(1 : ℚ)/2]] : Mat).getD l []).getD a 0 * ((2 - 1 : ℕ) : ℚ) =
          ((colVals (top_idx.map fun i =>
            (sampleCandidates 1 1 2 id (initState ℚ 1 1).mean
              (initState ℚ 1 1).stdSq (fun n => n) 0).getD i []) l a).map fun x =>
            (x - (([[(1 : ℚ)/2]] : Mat).getD l []).getD a 0) ^ 2).sum := by
  have hok : cemIter (C := ℚ) { L := 1, I := 1, J := 2, K := 2, R := 1, A := 1 }
      id (fun a => ⟨a.map fun _ => 0, [], [], 0⟩) (fun n => n) 0
      (initState ℚ 1 1) =
      .ok { mean := [[1/2]], stdSq := [[1/2]], trace := [([[1/2]], [[1/2]])],
            gt_costs_data := [[]], metric_costs_data := [[]],
            rollouts? := some ⟨[0, 0], [], [], 0⟩ } := by
    norm_num [cemIter, selectRefit, sampleCandidates, torchStdSqMean, torchTopk,
      topkIdx, besselVar, listMean, colVals, initState, zerosMat, onesMat,
      List.range_succ, List.enum, List.enumFrom, List.insertionSort,
      List.orderedInsert, SelLE]
  have h := c2_refit_sample_mean_bessel_std _ _ _ _ _ _ _ hok
  exact ⟨hok, h.1, h.2.1, h.2.2⟩

theorem torchStdSqMean_shape (L A : ℕ) (xs : List Mat) :
    HasShape (torchStdSqMean L A xs).1 L A ∧
    HasShape (torchStdSqMean L A xs).2 L A := by
  unfold torchStdSqMean
  exact ⟨range_map_shape _ _ _, range_map_shape _ _ _⟩

/-- When the elite count is within the candidate count and the rollout
function returns one cumulative cost per candidate, one loop iteration
always succeeds, appends one entry to each cost log, binds the `rollouts`
local, and refits an (L, A)-shaped belief. -/
theorem cemIter_ok {C : Type} [LinearOrder C] (pol : Policy) (sqrtFn : ℚ → ℚ)
    (rollFn : List Mat → Rollouts C) (rng : ℕ → ℚ) (it : ℕ) (st : LoopState C)
    (hKJ : pol.K ≤ pol.J)
    (hroll : ∀ a, ((rollFn a).sum_cost).length = a.length) :
    ∃ st' : LoopState C, cemIter pol sqrtFn rollFn rng it st = .ok st' ∧
      st'.gt_costs_data.length = st.gt_costs_data.length + 1 ∧
      st'.metric_costs_data.length = st.metric_costs_data.length + 1 ∧
      st'.rollouts?.isSome = true ∧
      HasShape st'.mean pol.L pol.A ∧ HasShape st'.stdSq pol.L pol.A := by
  unfold cemIter selectRefit
  have hlen : ((rollFn (sampleCandidates pol.L pol.A pol.J sqrtFn st.mean
      st.stdSq rng (it * (pol.J * pol.L * pol.A)))).sum_cost).length = pol.J := by
    rw [hroll]
    simp [sampleCandidates]
  unfold torchTopk
  rw [if_pos (by omega)]
  refine ⟨_, rfl, by simp, by simp, rfl, (torchStdSqMean_shape _ _ _).2,
    (torchStdSqMean_shape _ _ _).1⟩

/-- Under the same contract, the whole loop succeeds: n iterations append n
entries to each log, and when at least one iteration ran the `rollouts`
local is bound and the final belief has shape (L, A). -/
theorem cemRun_ok {C : Type} [LinearOrder C] (pol : Policy) (sqrtFn : ℚ → ℚ)
    (rollFn : List Mat → Rollouts C) (rng : ℕ → ℚ)
    (hKJ : pol.K ≤ pol.J)
    (hroll : ∀ a, ((rollFn a).sum_cost).length = a.length) :
    ∀ (n it : ℕ) (st : LoopState C), ∃ st' : LoopState C,
      cemRun pol sqrtFn rollFn rng it n st = .ok st' ∧
      st'.gt_costs_data.length = st.gt_costs_data.length + n ∧
      st'.metric_costs_data.length = st.metric_costs_data.length + n ∧
      (n = 0 → st' = st) ∧
      (0 < n → st'.rollouts?.isSome = true ∧
        HasShape st'.mean pol.L pol.A ∧ HasShape st'.stdSq pol.L pol.A) := by
  intro n
  induction n with
  | zero =>
    intro it st
    exact ⟨st, rfl, by omega, by omega, fun _ => rfl,
      fun h => absurd h (by omega)⟩
  | succ n ih =>
    intro it st
    obtain ⟨st1, h1, hg1, hm1, hs1, hmean1, hstd1⟩ :=
      cemIter_ok pol sqrtFn rollFn rng it st hKJ hroll
    obtain ⟨st', h2, hg2, hm2, h02, hpos2⟩ := ih (it + 1) st1
    refine ⟨st', ?_, by omega, by omega, fun h => absurd h (by omega), ?_⟩
    · show cemRun pol sqrtFn rollFn rng it (n + 1) st = .ok st'
      rw [cemRun, h1]
      exact h2
    · intro _
      rcases Nat.eq_zero_or_pos n with rfl | hn
      · rw [h02 rfl]
        exact ⟨hs1, hmean1, hstd1⟩
      · exact hpos2 hn

/-- Claim C10: because two adjacent string literals are concatenated in the
argument parser's choices list, the CLI's --reward_type flag rejects the
values "sparse" and "blackrobot" (and instead accepts the single value
"sparseblackrobot"), even though the environment's compute_reward implements
both the sparse and blackrobot reward types (reaching the sparse return and
the robot-blacking branch of weighted_cost respectively). -/
theorem c10_reward_type_choices_concatenated :
    "sparse" ∉ rewardTypeChoices ∧ "blackrobot" ∉ rewardTypeChoices ∧
    "sparseblackrobot" ∈ rewardTypeChoices ∧
    computeRewardBranch "sparse" = RewardBranch.sparse ∧
    computeRewardBranch "blackrobot" = RewardBranch.blackrobot := by
  refine ⟨?_, ?_, ?_, by decide, by decide⟩ <;> decide

/-- Claim C8: when the planning horizon exceeds the goal-sequence length G,
every rollout step with index t ≥ G is compared against the last goal frame
(index clamps to the final goal, reached through Python's -1 indexing); for
t < G the goal at index t is used. -/
theorem c8_goal_clamping {α : Type} (goal_imgs : List α) (t : ℕ)
    (hG : 0 < goal_imgs.length) :
    (goal_imgs.length ≤ t →
      goalImgAt goal_imgs t = goal_imgs.get? (goal_imgs.length - 1)) ∧
    (t < goal_imgs.length → goalImgAt goal_imgs t = goal_imgs.get? t) := by
  constructor
  · intro ht
    have hgi : goalIdx t goal_imgs.length = -1 := by
      unfold goalIdx
      rw [if_neg (by omega)]
    unfold goalImgAt
    rw [hgi]
    unfold pyGetItem
    have h1 : ((-(-1 : ℤ)).toNat) = 1 := by decide
    rw [if_neg (by decide), h1, if_pos (by omega)]
  · intro ht
    unfold goalImgAt goalIdx pyGetItem
    rw [if_pos ht, if_pos (by positivity)]
    simp

/-- Claim C8 witness: a 2-frame goal sequence under a horizon of 5; steps
2, 3 and 4 compare against goal index 1 (the last frame), steps 0 and 1
against their own index. -/
theorem c8_goal_clamping_witness :
    goalImgAt [10, 20] 2 = some 20 ∧ goalImgAt [10, 20] 3 = some 20 ∧
    goalImgAt [10, 20] 4 = some 20 ∧ goalImgAt [10, 20] 0 = some 10 ∧
    goalImgAt [10, 20] 1 = some 20 := by
  have h2 := (c8_goal_clamping [10, 20] 2 (by decide)).1 (by decide)
  have h3 := (c8_goal_clamping [10, 20] 3 (by decide)).1 (by decide)
  have h4 := (c8_goal_clamping [10, 20] 4 (by decide)).1 (by decide)
  have h0 := (c8_goal_clamping [10, 20] 0 (by decide)).2 (by decide)
  have h1 := (c8_goal_clamping [10, 20] 1 (by decide)).2 (by decide)
  exact ⟨by simpa using h2, by simpa using h3, by simpa using h4,
    by simpa using h0, by simpa using h1⟩

/-- Claim C3 counterexample: when the comparison-gif write raises,
compare_optimal_actions propagates the exception before the restoring
set_flattened_state runs, leaving the environment in the demo's start state
(here 1) instead of its pre-call state (here 0). -/
theorem c3_counterexample :
    compareOptimalActions false 0 1 = .error 1 ∧ (1 : EnvState) ≠ 0 :=
  ⟨rfl, by decide⟩

/-- Claim C3 (amended): on every normally-returning path of a
planning-internal use of the ground-truth simulator, the environment's state
is restored to its pre-call state before control returns; only a raising
path (such as a failing debug-gif write, which skips the trailing restore
because there is no try/finally) can leak the mutated state. -/
theorem c3_restore_on_normal_return (writeOk : Bool) (s0 demoStart s' : EnvState)
    (h : compareOptimalActions writeOk s0 demoStart = .ok s') : s' = s0 := by
  cases writeOk
  · simp [compareOptimalActions] at h
  · have hs : s0 = s' := by simpa [compareOptimalActions] using h
    exact hs.symm

/-- Claim C3 witness: a successful run from pre-call state 0 with demo start
state 1 returns normally with the environment restored to 0. -/
theorem c3_restore_witness :
    compareOptimalActions true 0 1 = .ok 0 ∧ (0 : EnvState) = 0 :=
  ⟨rfl, c3_restore_on_normal_return true 0 1 0 rfl⟩

/-- Claim C6 counterexample: a configuration whose elite count 5 exceeds its
candidate count 2 and whose horizon 1 is below its replan count 3 is accepted
by DemoCEMPolicy.__init__ without any failure, contradicting the claimed
fail-fast construction. -/
theorem c6_counterexample :
    initPolicy { horizon := 1, opt_iter := 1, action_candidates := 2,
                 topk := 5, replan_every := 3 } 4 =
      .ok { L := 1, I := 1, J := 2, K := 5, R := 3, A := 4 } := rfl

/-- Claim C6 (amended): DemoCEMPolicy.__init__ performs no validation at all:
for every configuration (including horizon < replan count and elite count >
candidate count) construction succeeds and the fields are copied verbatim;
an oversized elite count only surfaces later, when topk raises inside
get_action's SELECT step. -/
theorem c6_no_validation_at_init (cfg : Cfg) (d : ℕ) :
    initPolicy cfg d =
      .ok { L := cfg.horizon, I := cfg.opt_iter, J := cfg.action_candidates,
            K := cfg.topk, R := cfg.replan_every, A := d } := rfl

/-- Claim C7: two runs of the optimizer with identical random seed (hence
identical draw streams from torch's seeded global generator), identical
configuration and identical cost/rollout function produce identical belief
trajectories — mean and std after every optimization iteration — and
identical returned plans. -/
theorem c7_reproducibility {C : Type} [LinearOrder C]
    (pol₁ pol₂ : Policy) (sq₁ sq₂ : ℚ → ℚ)
    (roll₁ roll₂ : List Mat → Rollouts C) (rng₁ rng₂ : ℕ → ℚ)
    (hp : pol₁ = pol₂) (hs : sq₁ = sq₂) (hr : roll₁ = roll₂) (hg : rng₁ = rng₂) :
    getActionTrace pol₁ sq₁ roll₁ rng₁ = getActionTrace pol₂ sq₂ roll₂ rng₂ ∧
    getAction pol₁ sq₁ roll₁ rng₁ = getAction pol₂ sq₂ roll₂ rng₂ := by
  subst hp; subst hs; subst hr; subst hg
  exact ⟨rfl, rfl⟩

/-- Claim C7 witness: the reproducibility theorem applied to a concrete
configuration, square root, rollout function and random stream. -/
theorem c7_reproducibility_witness :
    getActionTrace (C := ℚ) { L := 1, I := 1, J := 2, K := 1, R := 1, A := 1 }
        id (fun a => ⟨a.map fun _ => 0, [], [], 0⟩) (fun _ => 0) =
      getActionTrace (C := ℚ) { L := 1, I := 1, J := 2, K := 1, R := 1, A := 1 }
        id (fun a => ⟨a.map fun _ => 0, [], [], 0⟩) (fun _ => 0) ∧
    getAction (C := ℚ) { L := 1, I := 1, J := 2, K := 1, R := 1, A := 1 }
        id (fun a => ⟨a.map fun _ => 0, [], [], 0⟩) (fun _ => 0) =
      getAction (C := ℚ) { L := 1, I := 1, J := 2, K := 1, R := 1, A := 1 }
        id (fun a => ⟨a.map fun _ => 0, [], [], 0⟩) (fun _ => 0) :=
  c7_reproducibility _ _ _ _ _ _ _ _ rfl rfl rfl rfl

/-- Claim C9: every planning call initializes the belief to an all-zero mean
and an all-ones std, both of shape (L, A), and after exactly I optimization
iterations (here I ≥ 1, since the call raises for I = 0, cf. the I = 0
analysis) returns the first R rows of the final mean as the committed action
prefix together with the two per-iteration cost logs, one entry per
iteration. -/
theorem c9_init_and_return {C : Type} [LinearOrder C] (pol : Policy)
    (sqrtFn : ℚ → ℚ) (rollFn : List Mat → Rollouts C) (rng : ℕ → ℚ)
    (hI : 0 < pol.I) (hKJ : pol.K ≤ pol.J) (hRL : pol.R ≤ pol.L)
    (hroll : ∀ a, ((rollFn a).sum_cost).length = a.length) :
    (initState C pol.L pol.A).mean = zerosMat pol.L pol.A ∧
    (initState C pol.L pol.A).stdSq = onesMat pol.L pol.A ∧
    HasShape (zerosMat pol.L pol.A) pol.L pol.A ∧
    HasShape (onesMat pol.L pol.A) pol.L pol.A ∧
    ∃ st : LoopState C,
      cemRun pol sqrtFn rollFn rng 0 pol.I (initState C pol.L pol.A) = .ok st ∧
      getAction pol sqrtFn rollFn rng =
        .ok (st.mean.take pol.R, st.gt_costs_data, st.metric_costs_data) ∧
      st.gt_costs_data.length = pol.I ∧
      st.metric_costs_data.length = pol.I ∧
      HasShape st.mean pol.L pol.A ∧
      (st.mean.take pol.R).length = pol.R ∧
      (∀ r ∈ st.mean.take pol.R, r.length = pol.A) := by
  obtain ⟨st, hrun, hg, hm, h0, hpos⟩ :=
    cemRun_ok pol sqrtFn rollFn rng hKJ hroll pol.I 0 (initState C pol.L pol.A)
  obtain ⟨hsome, hmean, hstd⟩ := hpos hI
  refine ⟨rfl, rfl, zerosMat_shape _ _, onesMat_shape _ _, st, hrun, ?_,
    by simpa [initState] using hg, by simpa [initState] using hm, hmean,
    ?_, ?_⟩
  · have hgm : getAction pol sqrtFn rollFn rng =
        match st.rollouts? with
        | none => .error "UnboundLocalError: local variable rollouts referenced before assignment"
        | some _ => .ok (st.mean.take pol.R, st.gt_costs_data, st.metric_costs_data) := by
      unfold getAction
      rw [hrun]
    rcases hr : st.rollouts? with _ | r
    · rw [hr] at hsome
      simp at hsome
    · rw [hgm, hr]
  · rw [List.length_take, hmean.1]
    omega
  · intro r hr
    exact hmean.2 r (List.mem_of_mem_take hr)

/-- Claim C9 witness: a concrete planning call (L = 2, I = 1, J = 2, K = 1,
R = 1, A = 1) satisfying the initialization and return contract. -/
theorem c9_init_and_return_witness :
    (initState ℚ 2 1).mean = zerosMat 2 1 ∧
    (initState ℚ 2 1).stdSq = onesMat 2 1 ∧
    HasShape (zerosMat 2 1) 2 1 ∧
    HasShape (onesMat 2 1) 2 1 ∧
    ∃ st : LoopState ℚ,
      cemRun { L := 2, I := 1, J := 2, K := 1, R := 1, A := 1 } id
          (fun a => ⟨a.map fun _ => 0, [], [], 0⟩) (fun _ => 0) 0 1
          (initState ℚ 2 1) = .ok st ∧
      getAction { L := 2, I := 1, J := 2, K := 1, R := 1, A := 1 } id
          (fun a => ⟨a.map fun _ => 0, [], [], 0⟩) (fun _ => 0) =
        .ok (st.mean.take 1, st.gt_costs_data, st.metric_costs_data) ∧
      st.gt_costs_data.length = 1 ∧
      st.metric_costs_data.length = 1 ∧
      HasShape st.mean 2 1 ∧
      (st.mean.take 1).length = 1 ∧
      (∀ r ∈ st.mean.take 1, r.length = 1) :=
  c9_init_and_return { L := 2, I := 1, J := 2, K := 1, R := 1, A := 1 } id
    (fun a => ⟨a.map fun _ => 0, [], [], 0⟩) (fun _ => 0)
    (by decide) (by decide) (by decide) (fun a => by simp)

/-- Claim C5 counterexample: a planning call in which every candidate's
cumulative cost is NaN (modelled as the top element of the cost order, which
is how torch ranks NaN in topk) completes without surfacing any error:
get_action returns a committed plan, refuting the claimed detection of
numerical degeneracy. -/
theorem c5_counterexample :
    getAction (C := WithTop ℚ) { L := 1, I := 1, J := 2, K := 1, R := 1, A := 1 }
        id (fun a => ⟨a.map fun _ => (⊤ : WithTop ℚ), [], [], ⊤⟩)
        (fun _ => 0) =
      .ok ([[0]], [[]], [[]]) := by
  norm_num [getAction, cemRun, cemIter, selectRefit, sampleCandidates,
    torchStdSqMean, torchTopk, topkIdx, besselVar, listMean, colVals,
    initState, zerosMat, onesMat, List.range_succ, List.enum, List.enumFrom,
    List.insertionSort, List.orderedInsert, SelLE]

/-- Claim C5 (amended): the optimizer performs no degeneracy detection: even
when every candidate's cumulative cost is NaN (the top element of the cost
order, ranked best by topk), the planning call completes normally — the
degenerate costs flow through top-K selection into the next mean/std — and
no aggregation error is surfaced. -/
theorem c5_no_degeneracy_detection (pol : Policy) (sqrtFn : ℚ → ℚ)
    (rollFn : List Mat → Rollouts (WithTop ℚ)) (rng : ℕ → ℚ)
    (hI : 0 < pol.I) (hKJ : pol.K ≤ pol.J)
    (hroll : ∀ a, ((rollFn a).sum_cost).length = a.length)
    (hnan : ∀ a, ∀ c ∈ (rollFn a).sum_cost, c = (⊤ : WithTop ℚ)) :
    ∃ x, getAction pol sqrtFn rollFn rng = .ok x := by
  obtain ⟨st, hrun, hg, hm, h0, hpos⟩ :=
    cemRun_ok pol sqrtFn rollFn rng hKJ hroll pol.I 0 (initState _ pol.L pol.A)
  obtain ⟨hsome, -, -⟩ := hpos hI
  refine ⟨(st.mean.take pol.R, st.gt_costs_data, st.metric_costs_data), ?_⟩
  unfold getAction
  rw [hrun]
  dsimp only
  rcases hr : st.rollouts? with _ | r
  · rw [hr] at hsome
    simp at hsome
  · rfl

/-- Claim C5 amended-claim witness: the no-detection theorem applied to a
concrete all-NaN planning call. -/
theorem c5_no_degeneracy_detection_witness :
    ∃ x, getAction (C := WithTop ℚ)
        { L := 1, I := 2, J := 3, K := 2, R := 1, A := 1 } id
        (fun a => ⟨a.map fun _ => (⊤ : WithTop ℚ), [], [], ⊤⟩)
        (fun _ => 0) = .ok x :=
  c5_no_degeneracy_detection { L := 1, I := 2, J := 3, K := 2, R := 1, A := 1 }
    id (fun a => ⟨a.map fun _ => (⊤ : WithTop ℚ), [], [], ⊤⟩) (fun _ => 0)
    (by decide) (by decide) (fun a => by simp)
    (fun a c hc => by
      obtain ⟨b, -, hb⟩ := List.mem_map.1 hc
      exact hb.symm)

/-- Claim C4: with iteration count I = 0 the optimization loop body never
runs, so the Python local `rollouts` is never bound, and the debug print
after the loop reads it: get_action raises UnboundLocalError for every
configuration with I = 0 instead of returning the zero-initialized mean's
first R rows, whatever J and K are. -/
theorem c4_iter_zero_raises {C : Type} [LinearOrder C] (pol : Policy)
    (sqrtFn : ℚ → ℚ) (rollFn : List Mat → Rollouts C) (rng : ℕ → ℚ)
    (h : pol.I = 0) :
    getAction pol sqrtFn rollFn rng =
      .error "UnboundLocalError: local variable rollouts referenced before assignment" := by
  unfold getAction
  rw [h]
  rfl

/-- Claim C4 witness: a concrete call with I = 0 (and nontrivial J, K)
raising instead of returning the zero plan. -/
theorem c4_iter_zero_raises_witness :
    getAction (C := ℚ) { L := 3, I := 0, J := 4, K := 2, R := 2, A := 1 } id
        (fun a => ⟨a.map fun _ => 0, [], [], 0⟩) (fun _ => 0) =
      .error "UnboundLocalError: local variable rollouts referenced before assignment" :=
  c4_iter_zero_raises { L := 3, I := 0, J := 4, K := 2, R := 2, A := 1 } id
    (fun a => ⟨a.map fun _ => 0, [], [], 0⟩) (fun _ => 0) rfl

end RAC
